import Mathlib

/-!
Verification of the upbit-connect core subsystems.

This file gives a shallow embedding of the two core components of the
repository — the adaptive rate limiter (`upbit_connect/limiter.py`) and the
WebSocket stream session (`upbit_connect/websocket/client.py`) — and proves
the specification claims about them.

Modelling conventions:
- Python floats that only undergo addition, subtraction, doubling, `min`,
  `max` and comparison on small exact values are modelled as rationals.
- `time.time()` values are passed explicitly as arguments.
- Python exceptions become explicit result constructors.
- A single pass through `wait_if_needed` (the body up to the recursive call)
  is one step of a step function; the recursion is run on fuel.
-/

namespace UpbitConnect

/-! ## Rate limiter state (`RateLimiter.__init__`) -/

/-- State of `RateLimiter`.  Class constants `_max_retries = 5`,
`_base_delay = 1.0` and `_max_delay = 60.0` are modelled as top-level
constants below. -/
structure RateLimiter where
  group_name : String
  max_requests : ℕ
  remaining : Option ℤ
  auto_retry : Bool
  bucket : List ℚ
  retry_count : ℕ
deriving DecidableEq, Repr

/-- `RateLimiter._max_retries`. -/
def maxRetries : ℕ := 5

/-- `RateLimiter._base_delay`. -/
def baseDelay : ℚ := 1

/-- `RateLimiter._max_delay`. -/
def maxDelay : ℚ := 60

/-- The constructor `RateLimiter(group_name, max_requests, auto_retry)`. -/
def mkRateLimiter (group : String) (maxReq : ℕ) (autoRetry : Bool) : RateLimiter :=
  { group_name := group
    max_requests := maxReq
    remaining := none
    auto_retry := autoRetry
    bucket := []
    retry_count := 0 }

/-- The leak loop of `wait_if_needed`:
`while self._bucket and current_time - self._bucket[0] >= 1.0: popleft()`. -/
def leak (now : ℚ) : List ℚ → List ℚ
  | [] => []
  | t :: ts => if now - t ≥ 1 then leak now ts else t :: ts

/-- `effective_limit` as computed in `wait_if_needed`: the static
`max_requests`, lowered to `remaining` when that is present and smaller. -/
def effectiveLimit (s : RateLimiter) : ℤ :=
  match s.remaining with
  | some r => if r < (s.max_requests : ℤ) then r else (s.max_requests : ℤ)
  | none => (s.max_requests : ℤ)

/-- Outcome of one pass through the body of `wait_if_needed`. -/
inductive AcquireOutcome where
  /-- The slot was acquired (`self._bucket.append(current_time)` reached). -/
  | acquired (s : RateLimiter)
  /-- `UpbitRateLimitError` raised, carrying `len(self._bucket)` and the
  effective limit from the message. -/
  | rateLimitError (s : RateLimiter) (count : ℕ) (limit : ℤ)
  /-- `await asyncio.sleep(wait_time)` followed by the recursive call. -/
  | waitRetry (s : RateLimiter) (delay : ℚ)
deriving DecidableEq, Repr

/-- One pass through the body of `RateLimiter.wait_if_needed`, at current
time `now`: leak, compute the effective limit, then admit, raise, or
compute a backoff delay and retry. -/
def waitIfNeededStep (s : RateLimiter) (now : ℚ) : AcquireOutcome :=
  let bucket := leak now s.bucket
  let s1 : RateLimiter := { s with bucket := bucket }
  let lim := effectiveLimit s1
  if (bucket.length : ℤ) ≥ lim then
    if s1.auto_retry = false then
      .rateLimitError s1 bucket.length lim
    else
      let base_wait : ℚ :=
        match bucket with
        | oldest :: _ => max 0 (1 - (now - oldest))
        | [] => 1 / 10
      let multiplier : ℚ := 2 ^ s1.retry_count
      let wait_time := min (base_wait * multiplier + baseDelay * multiplier) maxDelay
      .waitRetry { s1 with retry_count := min (s1.retry_count + 1) maxRetries } wait_time
  else
    .acquired { s1 with retry_count := 0, bucket := bucket ++ [now] }

/-- Terminal result of a completed `wait_if_needed` call. -/
inductive AcquireFinal where
  | ok (s : RateLimiter)
  | err (s : RateLimiter) (count : ℕ) (limit : ℤ)
deriving DecidableEq, Repr

/-- `wait_if_needed` run on fuel: `times i` is the value of `time.time()`
observed on the `i`-th pass.  `none` means the call is still waiting after
`fuel` passes. -/
def acquireFuel (times : ℕ → ℚ) : ℕ → ℕ → RateLimiter → Option AcquireFinal
  | _, 0, _ => none
  | i, fuel + 1, s =>
    match waitIfNeededStep s (times i) with
    | .acquired s1 => some (.ok s1)
    | .rateLimitError s1 n l => some (.err s1 n l)
    | .waitRetry s1 _ => acquireFuel times (i + 1) fuel s1

/-! ## Remaining-Req header parsing (`parse_remaining_req`) -/

/-- ASCII whitespace stripped by Python `str.strip()` (the model restricts
itself to ASCII input). -/
def isPySpace (c : Char) : Bool :=
  c = ' ' || c = '\t' || c = '\n' || c = '\x0d' || c = '\x0b' || c = '\x0c'

/-- `str.strip()` on a character list. -/
def stripChars (l : List Char) : List Char :=
  ((l.dropWhile isPySpace).reverse.dropWhile isPySpace).reverse

/-- `header_value.split(";")`. -/
def splitSemi : List Char → List (List Char)
  | [] => [[]]
  | c :: cs =>
    if c = ';' then [] :: splitSemi cs
    else
      match splitSemi cs with
      | p :: ps => (c :: p) :: ps
      | [] => [[c]]

/-- `part.split("=", 1)`: characters before the first `=` and after it.
Only used when `=` occurs in the part. -/
def splitFirstEq : List Char → List Char × List Char
  | [] => ([], [])
  | c :: cs =>
    if c = '=' then ([], cs)
    else
      let kv := splitFirstEq cs
      (c :: kv.1, kv.2)

/-- Value of an ASCII decimal digit. -/
def digitVal (c : Char) : Option ℕ :=
  if c.isDigit then some (c.toNat - 48) else none

/-- Digit run of Python `int(str)` after the optional sign: decimal digits
with single underscores allowed between digits. -/
def pyDigitsAux : ℕ → List Char → Option ℕ
  | acc, [] => some acc
  | acc, '_' :: c :: rest =>
    match digitVal c with
    | some d => pyDigitsAux (acc * 10 + d) rest
    | none => none
  | acc, c :: rest =>
    match digitVal c with
    | some d => pyDigitsAux (acc * 10 + d) rest
    | none => none

/-- Nonempty digit run (underscores between digits). -/
def pyDigits : List Char → Option ℕ
  | [] => none
  | c :: rest =>
    match digitVal c with
    | some d => pyDigitsAux d rest
    | none => none

/-- Python `int(value)` on an ASCII string: optional surrounding
whitespace, optional sign, then digits.  `none` models `ValueError`. -/
def pyInt (l : List Char) : Option ℤ :=
  match stripChars l with
  | '+' :: rest => (pyDigits rest).map (fun n => (n : ℤ))
  | '-' :: rest => (pyDigits rest).map (fun n => -(n : ℤ))
  | rest => (pyDigits rest).map (fun n => (n : ℤ))

/-- The fields of the `result` dict of `parse_remaining_req` that the code
ever reads: the last assigned `group`, `min` and `sec` values (later
assignments overwrite earlier ones, as in a dict; other keys are stored but
never read, so they are not tracked). -/
structure RemainingReq where
  group : Option String
  minV : Option ℤ
  secV : Option ℤ
deriving DecidableEq, Repr

/-- The `for raw_part in parts` loop of `parse_remaining_req`.  `.error`
models a raised `ValueError`. -/
def parseParts : List (List Char) → RemainingReq → Except String RemainingReq
  | [], r => .ok r
  | p :: ps, r =>
    let part := stripChars p
    if part.contains '=' then
      let kv := splitFirstEq part
      let key := stripChars kv.1
      let value := stripChars kv.2
      if key = "min".data then
        match pyInt value with
        | some n => parseParts ps { r with minV := some n }
        | none => .error "Invalid numeric value for min"
      else if key = "sec".data then
        match pyInt value with
        | some n => parseParts ps { r with secV := some n }
        | none => .error "Invalid numeric value for sec"
      else if key = "group".data then
        parseParts ps { r with group := some (String.mk value) }
      else
        parseParts ps r
    else
      parseParts ps r

/-- `parse_remaining_req(header_value)`.  `.error` models a raised
`ValueError`. -/
def parse_remaining_req (header_value : String) : Except String RemainingReq :=
  if header_value = "" then .error "Empty Remaining-Req header"
  else
    match parseParts (splitSemi header_value.data)
        { group := none, minV := none, secV := none } with
    | .error e => .error e
    | .ok r =>
      if r.group.isNone then .error "Missing group in Remaining-Req header"
      else if r.secV.isNone && r.minV.isNone then
        .error "Missing rate limit values in Remaining-Req header"
      else .ok r

/-- `headers.get(k)` on a header dict modelled as an association list with
distinct keys. -/
def getHeader (headers : List (String × String)) (k : String) : Option String :=
  (headers.find? (fun p => p.1 = k)).map Prod.snd

/-- Python `a or b` on two optional strings (`None` and `""` are falsy). -/
def pyOrStr : Option String → Option String → Option String
  | some v, b => if v = "" then b else some v
  | none, b => b

/-- `RateLimiter.update_from_headers(headers)`. -/
def update_from_headers (s : RateLimiter) (headers : List (String × String)) :
    RateLimiter :=
  match pyOrStr (getHeader headers "Remaining-Req") (getHeader headers "remaining-req") with
  | none => s
  | some hv =>
    if hv = "" then s
    else
      match parse_remaining_req hv with
      | .error _ => s
      | .ok parsed =>
        if parsed.group ≠ some s.group_name then s
        else
          match parsed.secV with
          | some v => { s with remaining := some v }
          | none => s

/-- `RateLimiter.reset()`. -/
def RateLimiter.reset (s : RateLimiter) : RateLimiter :=
  { s with bucket := [], retry_count := 0, remaining := none }

/-! ## WebSocket client (`upbit_connect/websocket/client.py`) -/

/-- A channel configuration dict as consumed by `UpbitWebSocket.subscribe`:
`type` is always read (`channel["type"]`), while `codes`, `isOnlyRealtime`
and `isOnlySnapshot` are copied only when the key is present, which the
`Option` models. -/
structure Channel where
  type : String
  codes : Option (List String)
  isOnlyRealtime : Option Bool
  isOnlySnapshot : Option Bool
deriving DecidableEq, Repr

/-- JSON values occurring in outbound subscription frames. -/
inductive JVal where
  | s (v : String)
  | b (v : Bool)
  | strs (v : List String)
deriving DecidableEq, Repr

/-- A JSON object as an insertion-ordered key/value list (Python dicts
preserve insertion order). -/
abbrev JObj := List (String × JVal)

/-- An outbound frame: a JSON array of objects. -/
abbrev Frame := List JObj

/-- Key lookup in a `JObj` (first match). -/
def getKey : JObj → String → Option JVal
  | [], _ => none
  | kv :: rest, k => if kv.1 = k then some kv.2 else getKey rest k

/-- State of `UpbitWebSocket`.  The live `ClientConnection` is modelled as
an opaque handle number; `none` is a `None` websocket. -/
structure UpbitWebSocket where
  access_key : Option String
  secret_key : Option String
  websocket : Option ℕ
  subscriptions : List (String × List Channel)
  running : Bool
  reconnect_delay : ℚ
deriving DecidableEq, Repr

/-- `UpbitWebSocket.RECONNECT_DELAY`. -/
def wsReconnectDelay : ℚ := 1

/-- `UpbitWebSocket.MAX_RECONNECT_DELAY`. -/
def wsMaxReconnectDelay : ℚ := 60

/-- The constructor `UpbitWebSocket(access_key, secret_key)`. -/
def mkWebSocket (ak sk : Option String) : UpbitWebSocket :=
  { access_key := ak
    secret_key := sk
    websocket := none
    subscriptions := []
    running := false
    reconnect_delay := wsReconnectDelay }

/-- Python truthiness of an optional string (`None` and `""` are falsy),
as tested by `if self.access_key and self.secret_key`. -/
def truthy : Option String → Bool
  | none => false
  | some v => v ≠ ""

/-- `ch.get("type") in ("myOrder", "myAsset")`. -/
def isPrivateType (t : String) : Bool :=
  t = "myOrder" || t = "myAsset"

/-- The per-channel element built by the loop in `subscribe`:
`{"type": ...}` plus `codes` / `isOnlyRealtime` / `isOnlySnapshot` exactly
when present in the input dict. -/
def channelMsg (ch : Channel) : JObj :=
  [("type", JVal.s ch.type)]
    ++ (match ch.codes with
        | some cs => [("codes", JVal.strs cs)]
        | none => [])
    ++ (match ch.isOnlyRealtime with
        | some b => [("isOnlyRealtime", JVal.b b)]
        | none => [])
    ++ (match ch.isOnlySnapshot with
        | some b => [("isOnlySnapshot", JVal.b b)]
        | none => [])

/-- The `ticket_msg` dict built by `subscribe`: `{"ticket": ticket}`, with
`"auth"` added when both credentials are truthy and some channel is
private.  `signer a b` models `generate_jwt_token(a, b, None, None)` (the
Signer applied with no query/body payload). -/
def ticketMsg (signer : String → String → String) (s : UpbitWebSocket)
    (ticket : String) (channels : List Channel) : JObj :=
  [("ticket", JVal.s ticket)]
    ++ (if truthy s.access_key && truthy s.secret_key then
          if channels.any (fun ch => isPrivateType ch.type) then
            [("auth", JVal.s (signer (s.access_key.getD "") (s.secret_key.getD "")))]
          else []
        else [])

/-- The full frame sent by `subscribe`: ticket element, one element per
channel, then the `{"format": "DEFAULT"}` directive. -/
def subscribeFrame (signer : String → String → String) (s : UpbitWebSocket)
    (ticket : String) (channels : List Channel) : Frame :=
  ticketMsg signer s ticket channels
    :: (channels.map channelMsg ++ [[("format", JVal.s "DEFAULT")]])

/-- Errors raised by the modelled WebSocket methods. -/
inductive WsErr where
  /-- `UpbitError("Not connected to WebSocket")`. -/
  | notConnected
deriving DecidableEq, Repr

/-- `UpbitWebSocket.subscribe(ticket, channels)`: raises when not
connected, otherwise sends the frame and appends `(ticket, channels)` to
`subscriptions`. -/
def subscribe (signer : String → String → String) (s : UpbitWebSocket)
    (ticket : String) (channels : List Channel) :
    Except WsErr (UpbitWebSocket × Frame) :=
  match s.websocket with
  | none => .error .notConnected
  | some _ =>
    .ok ({ s with subscriptions := s.subscriptions ++ [(ticket, channels)] },
         subscribeFrame signer s ticket channels)

/-- `UpbitWebSocket.unsubscribe(ticket)`. -/
def unsubscribe (s : UpbitWebSocket) (ticket : String) : UpbitWebSocket :=
  { s with subscriptions := s.subscriptions.filter (fun p => p.1 ≠ ticket) }

/-- The loop of `UpbitWebSocket._resubscribe` over the saved snapshot,
collecting the frames sent. -/
def resubscribeGo (signer : String → String → String) :
    List (String × List Channel) → UpbitWebSocket → List Frame →
    Except WsErr (UpbitWebSocket × List Frame)
  | [], s, acc => .ok (s, acc.reverse)
  | (t, chs) :: rest, s, acc =>
    match subscribe signer s t chs with
    | .error e => .error e
    | .ok (s1, fr) => resubscribeGo signer rest s1 (fr :: acc)

/-- `UpbitWebSocket._resubscribe()`: snapshot `subscriptions`, clear it,
then re-issue one `subscribe` per saved pair in order. -/
def resubscribe (signer : String → String → String) (s : UpbitWebSocket) :
    Except WsErr (UpbitWebSocket × List Frame) :=
  resubscribeGo signer s.subscriptions { s with subscriptions := [] } []

/-- A successful `UpbitWebSocket.connect()` yielding connection handle
`c`: store the handle, set `running`, reset the reconnect delay. -/
def connectOk (s : UpbitWebSocket) (c : ℕ) : UpbitWebSocket :=
  { s with websocket := some c, running := true,
           reconnect_delay := wsReconnectDelay }

/-- `UpbitWebSocket.close()`: stop the loop and drop the connection. -/
def close (s : UpbitWebSocket) : UpbitWebSocket :=
  { s with running := false, websocket := none }

/-- Events driving the `UpbitWebSocket` state, covering the public methods
and the exception handlers of the `run` loop. -/
inductive WsEv where
  /-- `connect()`: `some c` is a successful connect yielding handle `c`,
  `none` a connect that raised (state unchanged). -/
  | connect (c : Option ℕ)
  /-- `subscribe(ticket, channels)` (state unchanged when it raises). -/
  | subscribeEv (ticket : String) (channels : List Channel)
  /-- `unsubscribe(ticket)`. -/
  | unsubscribeEv (ticket : String)
  /-- `close()`. -/
  | closeEv
  /-- `run`: the loop iteration that finds `websocket` unset, connects
  successfully obtaining handle `c`, and replays the subscriptions. -/
  | runReconnect (c : ℕ)
  /-- `run`: `websockets.exceptions.ConnectionClosed` caught. -/
  | runConnClosed
  /-- `run`: a generic `Exception` caught while `running` (the
  not-running case re-raises as `UpbitError` with the state unchanged,
  which the same transition covers). -/
  | runError
  /-- `run`: `asyncio.CancelledError` at an await point: set
  `running = False` and re-raise. -/
  | runCancel
  /-- `run`: a message received and dispatched to the callback
  (no session state change). -/
  | runMessage
deriving DecidableEq, Repr

/-- One transition of the session, returning the new state and the
duration of the `asyncio.sleep` backoff performed, if any. -/
def stepOut (signer : String → String → String) (s : UpbitWebSocket) :
    WsEv → UpbitWebSocket × Option ℚ
  | .connect (some c) => (connectOk s c, none)
  | .connect none => (s, none)
  | .subscribeEv t chs =>
    (match subscribe signer s t chs with
     | .ok (s1, _) => (s1, none)
     | .error _ => (s, none))
  | .unsubscribeEv t => (unsubscribe s t, none)
  | .closeEv => (close s, none)
  | .runReconnect c =>
    (match resubscribe signer (connectOk s c) with
     | .ok (s1, _) => (s1, none)
     | .error _ => (connectOk s c, none))
  | .runConnClosed =>
    if s.running then
      ({ s with websocket := none,
                reconnect_delay := min (s.reconnect_delay * 2) wsMaxReconnectDelay },
       some s.reconnect_delay)
    else (s, none)
  | .runError =>
    if s.running then
      ({ s with websocket := none,
                reconnect_delay := min (s.reconnect_delay * 2) wsMaxReconnectDelay },
       some s.reconnect_delay)
    else (s, none)
  | .runCancel => ({ s with running := false }, none)
  | .runMessage => (s, none)

/-- The state after an event. -/
def step (signer : String → String → String) (s : UpbitWebSocket)
    (e : WsEv) : UpbitWebSocket :=
  (stepOut signer s e).1

/-- The state after a sequence of events. -/
def steps (signer : String → String → String) :
    UpbitWebSocket → List WsEv → UpbitWebSocket
  | s, [] => s
  | s, e :: es => steps signer (step signer s e) es

/-- The backoff delays slept by `n` consecutive failure iterations of the
`run` loop (each repeated connect failure sleeps the current
`_reconnect_delay`, then doubles it capped at the maximum). -/
def failureSleeps (signer : String → String → String) :
    ℕ → UpbitWebSocket → List ℚ
  | 0, _ => []
  | n + 1, s =>
    match stepOut signer s .runError with
    | (s1, some d) => d :: failureSleeps signer n s1
    | (s1, none) => failureSleeps signer n s1

/-- The value of `_reconnect_delay` after `n` failure iterations starting
from the base delay. -/
def delayAfterFails : ℕ → ℚ
  | 0 => wsReconnectDelay
  | n + 1 => min (delayAfterFails n * 2) wsMaxReconnectDelay

/-- The session invariant stated by the spec: an active connection handle
implies the receive loop is (to be) running. -/
def wsConnImpliesRunning (s : UpbitWebSocket) : Prop :=
  s.websocket ≠ none → s.running = true

/-- A concrete running session with one tracked ticker subscription, used
by witnesses. -/
def wsExample : UpbitWebSocket :=
  { access_key := none
    secret_key := none
    websocket := some 3
    subscriptions := [("t1", [⟨"ticker", some ["KRW-BTC"], none, none⟩])]
    running := true
    reconnect_delay := 1 }

/-! ## Theorems: rate limiter -/

/-- The effective limit only reads `remaining` and `max_requests`. -/
theorem effectiveLimit_congr (s1 s2 : RateLimiter)
    (hr : s1.remaining = s2.remaining) (hm : s1.max_requests = s2.max_requests) :
    effectiveLimit s1 = effectiveLimit s2 := by
  unfold effectiveLimit
  rw [hr, hm]

/-- Claim C1: after any pass of `wait_if_needed` that completes by
admitting the request — the final pass of any completed `acquire`, from an
arbitrary prior state, hence under arbitrary interleaving of
`update_from_headers` calls — the bucket length, and in particular the
number of bucket timestamps within the trailing one second, is at most the
effective capacity `min(max_requests, remaining)` (with `remaining`
ignored when unset). -/
theorem acquire_window_within_capacity (s : RateLimiter) (now : ℚ)
    (s1 : RateLimiter) (h : waitIfNeededStep s now = .acquired s1) :
    (s1.bucket.length : ℤ) ≤ effectiveLimit s1 ∧
    ((s1.bucket.filter (fun t => now - t < 1)).length : ℤ) ≤ effectiveLimit s1 := by
  unfold waitIfNeededStep at h
  simp only at h
  split at h
  · split at h
    · exact absurd h (by simp)
    · exact absurd h (by simp)
  · rename_i hlt
    injection h with h1
    subst h1
    have hl : ((leak now s.bucket).length : ℤ) < effectiveLimit s := lt_of_not_ge hlt
    have hlen : (((leak now s.bucket) ++ [now]).length : ℤ) ≤ effectiveLimit s := by
      simp only [List.length_append, List.length_cons, List.length_nil]
      push_cast
      omega
    constructor
    · exact hlen
    · refine le_trans ?_ hlen
      exact_mod_cast List.length_filter_le _ _

/-- Witness for C1: a fresh limiter admitting its first request at time 0
ends with one bucket entry, within the capacity of 30. -/
theorem acquire_window_within_capacity_witness :
    (((⟨"quotation", 30, none, true, [(0 : ℚ)], 0⟩ : RateLimiter).bucket.length : ℤ) ≤
        effectiveLimit ⟨"quotation", 30, none, true, [(0 : ℚ)], 0⟩) ∧
    ((((⟨"quotation", 30, none, true, [(0 : ℚ)], 0⟩ : RateLimiter).bucket.filter
          (fun t => (0 : ℚ) - t < 1)).length : ℤ) ≤
        effectiveLimit ⟨"quotation", 30, none, true, [(0 : ℚ)], 0⟩) :=
  acquire_window_within_capacity (mkRateLimiter "quotation" 30 true) 0
    ⟨"quotation", 30, none, true, [(0 : ℚ)], 0⟩ (by rfl)

/-- Claim C6: with `auto_retry = False`, whenever the evicted bucket is
still at or above the effective capacity the pass raises
`UpbitRateLimitError` and admits nothing (the resulting state carries the
evicted bucket without the new timestamp, all other fields unchanged); in
particular the very next pass after `remaining` was observed as 0 raises. -/
theorem acquire_no_autoretry_raises :
    (∀ (s : RateLimiter) (now : ℚ), s.auto_retry = false →
      ((leak now s.bucket).length : ℤ) ≥ effectiveLimit s →
      waitIfNeededStep s now =
        .rateLimitError { s with bucket := leak now s.bucket }
          (leak now s.bucket).length (effectiveLimit s)) ∧
    (∀ (s : RateLimiter) (now : ℚ), s.auto_retry = false → s.remaining = some 0 →
      waitIfNeededStep s now =
        .rateLimitError { s with bucket := leak now s.bucket }
          (leak now s.bucket).length 0) := by
  have main : ∀ (s : RateLimiter) (now : ℚ), s.auto_retry = false →
      ((leak now s.bucket).length : ℤ) ≥ effectiveLimit s →
      waitIfNeededStep s now =
        .rateLimitError { s with bucket := leak now s.bucket }
          (leak now s.bucket).length (effectiveLimit s) := by
    intro s now hf hge
    have hge' : ((leak now s.bucket).length : ℤ) ≥
        effectiveLimit { s with bucket := leak now s.bucket } := hge
    unfold waitIfNeededStep
    simp only
    rw [if_pos hge', if_pos hf]
    rfl
  refine ⟨main, ?_⟩
  intro s now hf hrem
  have hlim : effectiveLimit s = 0 := by
    simp only [effectiveLimit, hrem]
    split <;> omega
  have := main s now hf (by rw [hlim]; exact Int.natCast_nonneg _)
  rw [hlim] at this
  exact this

/-- Witness for C6: the spec scenario — capacity 2, two timestamps at
`t = 1000.0`, `auto_retry` off, `acquire` at `now = 1000.0` raises. -/
theorem acquire_no_autoretry_raises_witness :
    waitIfNeededStep ⟨"test", 2, none, false, [(1000 : ℚ), 1000], 0⟩ 1000 =
      .rateLimitError
        { (⟨"test", 2, none, false, [(1000 : ℚ), 1000], 0⟩ : RateLimiter) with
            bucket := leak 1000 [(1000 : ℚ), 1000] }
        (leak 1000 [(1000 : ℚ), 1000]).length
        (effectiveLimit ⟨"test", 2, none, false, [(1000 : ℚ), 1000], 0⟩) :=
  acquire_no_autoretry_raises.1 ⟨"test", 2, none, false, [(1000 : ℚ), 1000], 0⟩ 1000
    rfl (by with_unfolding_all decide)

/-- Claim C8: a pass that has to wait with current retry count `k` sleeps
exactly `min(baseWait * 2^k + 1.0 * 2^k, 60.0)`, where `baseWait` is
`max(0, 1.0 - (now - window[0]))` on a non-empty evicted window and `0.1`
on an empty one, and leaves the retry count at `min(k + 1, 5)`; every
admitting pass resets the retry count to 0. -/
theorem acquire_backoff_formula :
    (∀ (s : RateLimiter) (now : ℚ) (s1 : RateLimiter) (d : ℚ),
      waitIfNeededStep s now = .waitRetry s1 d →
      d = min ((match leak now s.bucket with
                | oldest :: _ => max 0 (1 - (now - oldest))
                | [] => 1 / 10) * 2 ^ s.retry_count + 1 * 2 ^ s.retry_count) 60 ∧
      s1.retry_count = min (s.retry_count + 1) 5) ∧
    (∀ (s : RateLimiter) (now : ℚ) (s1 : RateLimiter),
      waitIfNeededStep s now = .acquired s1 → s1.retry_count = 0) := by
  constructor
  · intro s now s1 d h
    unfold waitIfNeededStep at h
    simp only at h
    split at h
    · split at h
      · exact absurd h (by simp)
      · injection h with h1 h2
        constructor
        · rw [← h2]
          rfl
        · rw [← h1]
          rfl
    · exact absurd h (by simp)
  · intro s now s1 h
    unfold waitIfNeededStep at h
    simp only at h
    split at h
    · split at h
      · exact absurd h (by simp)
      · exact absurd h (by simp)
    · injection h with h1
      rw [← h1]

set_option maxRecDepth 4000 in
/-- Witness for C8: capacity 1, one slot taken at `t = 1000`, retry count
0; the pass invoked at `now = 1000` sleeps `min(1 * 1 + 1 * 1, 60) = 2`
and bumps the retry count to 1. -/
theorem acquire_backoff_formula_witness :
    ((2 : ℚ) = min ((match leak 1000 [(1000 : ℚ)] with
                     | oldest :: _ => max 0 (1 - (1000 - oldest))
                     | [] => 1 / 10) * 2 ^ 0 + 1 * 2 ^ 0) 60 ∧
      (⟨"test", 1, none, true, [(1000 : ℚ)], 1⟩ : RateLimiter).retry_count = min (0 + 1) 5) :=
  acquire_backoff_formula.1 ⟨"test", 1, none, true, [(1000 : ℚ)], 0⟩ 1000
    ⟨"test", 1, none, true, [(1000 : ℚ)], 1⟩ 2 (by with_unfolding_all decide)

/-- A limiter whose effective capacity is not positive can only wait:
every pass yields `waitRetry` and preserves the fields the capacity is
computed from. -/
theorem waitIfNeededStep_zero_cap (s : RateLimiter) (now : ℚ)
    (hauto : s.auto_retry = true) (hcap : effectiveLimit s ≤ 0) :
    ∃ s1 d, waitIfNeededStep s now = .waitRetry s1 d ∧
      s1.remaining = s.remaining ∧ s1.max_requests = s.max_requests ∧
      s1.auto_retry = true := by
  have hge' : ((leak now s.bucket).length : ℤ) ≥
      effectiveLimit { s with bucket := leak now s.bucket } := by
    have he : effectiveLimit { s with bucket := leak now s.bucket } = effectiveLimit s := rfl
    rw [he]
    exact le_trans hcap (Int.natCast_nonneg _)
  unfold waitIfNeededStep
  simp only
  rw [if_pos hge', if_neg (by simp [hauto])]
  exact ⟨_, _, rfl, rfl, rfl, hauto⟩

/-- Claim C10: with auto-wait on and effective capacity at most 0 (for
example after `remaining` was observed as 0), every pass of
`wait_if_needed` — even on an empty window — finds the window at or above
capacity and sleeps again, the fields determining the capacity unchanged;
consequently the recursion never completes on any fuel, whatever times the
passes observe. -/
theorem acquire_never_terminates_at_zero_capacity (s : RateLimiter)
    (hauto : s.auto_retry = true) (hcap : effectiveLimit s ≤ 0) :
    (∀ now : ℚ, ∃ s1 d, waitIfNeededStep s now = .waitRetry s1 d ∧
      s1.remaining = s.remaining ∧ s1.auto_retry = true ∧ effectiveLimit s1 ≤ 0) ∧
    (∀ (times : ℕ → ℚ) (i fuel : ℕ), acquireFuel times i fuel s = none) := by
  have aux : ∀ (fuel : ℕ) (s : RateLimiter), s.auto_retry = true →
      effectiveLimit s ≤ 0 → ∀ (times : ℕ → ℚ) (i : ℕ),
      acquireFuel times i fuel s = none := by
    intro fuel
    induction fuel with
    | zero => intro s _ _ times i; rfl
    | succ n ih =>
      intro s ha hc times i
      obtain ⟨s1, d, h, hr, hm, ha1⟩ := waitIfNeededStep_zero_cap s (times i) ha hc
      unfold acquireFuel
      rw [h]
      exact ih s1 ha1 (by rw [effectiveLimit_congr s1 s hr hm]; exact hc) times (i + 1)
  constructor
  · intro now
    obtain ⟨s1, d, h, hr, hm, ha1⟩ := waitIfNeededStep_zero_cap s now hauto hcap
    refine ⟨s1, d, h, hr, ha1, ?_⟩
    rw [effectiveLimit_congr s1 s hr hm]
    exact hcap
  · exact fun times i fuel => aux fuel s hauto hcap times i

/-- Witness for C10: a limiter with `remaining = 0` observed, auto-wait
on, empty bucket. -/
theorem acquire_never_terminates_witness :
    (∀ now : ℚ, ∃ s1 d,
      waitIfNeededStep ⟨"order", 30, some 0, true, [], 0⟩ now = .waitRetry s1 d ∧
      s1.remaining = (⟨"order", 30, some 0, true, [], 0⟩ : RateLimiter).remaining ∧
      s1.auto_retry = true ∧ effectiveLimit s1 ≤ 0) ∧
    (∀ (times : ℕ → ℚ) (i fuel : ℕ),
      acquireFuel times i fuel ⟨"order", 30, some 0, true, [], 0⟩ = none) :=
  acquire_never_terminates_at_zero_capacity ⟨"order", 30, some 0, true, [], 0⟩
    rfl (by decide)

/-- `update_from_headers` on a single `Remaining-Req` header with a
non-empty value reduces to the dispatch on `parse_remaining_req`. -/
theorem update_from_headers_single (s : RateLimiter) (hv : String) (hne : hv ≠ "") :
    update_from_headers s [("Remaining-Req", hv)] =
      (match parse_remaining_req hv with
       | .error _ => s
       | .ok parsed =>
         if parsed.group ≠ some s.group_name then s
         else
           match parsed.secV with
           | some v => { s with remaining := some v }
           | none => s) := by
  have h1 : pyOrStr (getHeader [("Remaining-Req", hv)] "Remaining-Req")
      (getHeader [("Remaining-Req", hv)] "remaining-req") =
      if hv = "" then none else some hv := rfl
  unfold update_from_headers
  rw [h1, if_neg hne]
  simp only
  rw [if_neg hne]

/-- Claim C7: `update_from_headers` sets `remaining` to the parsed `sec`
value exactly when the header value parses, its group equals the limiter's
group name, and a `sec` value is present; on a malformed header, a
group-mismatched header, or a matching header without `sec`, the limiter
state is left entirely unchanged (and no error escapes: the model is a
total function, as the code catches `ValueError`). -/
theorem observe_remaining_characterized (s : RateLimiter) (hv : String) :
    (∀ r v, parse_remaining_req hv = .ok r → r.group = some s.group_name →
      r.secV = some v →
      update_from_headers s [("Remaining-Req", hv)] = { s with remaining := some v }) ∧
    (∀ e, parse_remaining_req hv = .error e →
      update_from_headers s [("Remaining-Req", hv)] = s) ∧
    (∀ r, parse_remaining_req hv = .ok r → r.group ≠ some s.group_name →
      update_from_headers s [("Remaining-Req", hv)] = s) ∧
    (∀ r, parse_remaining_req hv = .ok r → r.group = some s.group_name →
      r.secV = none →
      update_from_headers s [("Remaining-Req", hv)] = s) := by
  by_cases hne : hv = ""
  · subst hne
    refine ⟨?_, ?_, ?_, ?_⟩
    · intro r v hok
      simp [parse_remaining_req] at hok
    · intro e _
      rfl
    · intro r hok
      simp [parse_remaining_req] at hok
    · intro r hok
      simp [parse_remaining_req] at hok
  · refine ⟨?_, ?_, ?_, ?_⟩
    · intro r v hok hg hs
      rw [update_from_headers_single s hv hne, hok]
      simp only
      rw [if_neg (by simp [hg]), hs]
    · intro e he
      rw [update_from_headers_single s hv hne, he]
    · intro r hok hg
      rw [update_from_headers_single s hv hne, hok]
      simp only
      rw [if_pos hg]
    · intro r hok hg hs
      rw [update_from_headers_single s hv hne, hok]
      simp only
      rw [if_neg (by simp [hg]), hs]

/-- Witness for C7: a `group=market; min=598; sec=9` header observed by
the `market` limiter sets `remaining` to 9. -/
theorem observe_remaining_characterized_witness :
    update_from_headers (mkRateLimiter "market" 30 true)
        [("Remaining-Req", "group=market; min=598; sec=9")] =
      { mkRateLimiter "market" 30 true with remaining := some 9 } :=
  (observe_remaining_characterized (mkRateLimiter "market" 30 true)
      "group=market; min=598; sec=9").1
    ⟨some "market", some 598, some 9⟩ 9 (by rfl) rfl rfl

/-! ## Theorems: WebSocket client -/

/-- Claim C5: on a connected session, `subscribe` succeeds, appends the
pair to `subscriptions`, and sends the frame whose first element carries
`ticket` (and `auth` — the Signer's token on the bare key pair — exactly
when both credentials are configured and some channel is private), whose
middle elements carry `type` plus `codes` / `isOnlyRealtime` /
`isOnlySnapshot` exactly when present, and whose last element is the
format directive. -/
theorem subscribe_frame_characterized (signer : String → String → String)
    (s : UpbitWebSocket) (c : ℕ) (t : String) (chs : List Channel)
    (hc : s.websocket = some c) :
    subscribe signer s t chs =
      .ok ({ s with subscriptions := s.subscriptions ++ [(t, chs)] },
           ticketMsg signer s t chs
             :: (chs.map channelMsg ++ [[("format", JVal.s "DEFAULT")]])) ∧
    getKey (ticketMsg signer s t chs) "ticket" = some (JVal.s t) ∧
    ((getKey (ticketMsg signer s t chs) "auth").isSome = true ↔
      ((truthy s.access_key && truthy s.secret_key) = true ∧
        chs.any (fun ch => isPrivateType ch.type) = true)) ∧
    ((truthy s.access_key && truthy s.secret_key) = true →
      chs.any (fun ch => isPrivateType ch.type) = true →
      ticketMsg signer s t chs =
        [("ticket", JVal.s t),
         ("auth", JVal.s (signer (s.access_key.getD "") (s.secret_key.getD "")))]) ∧
    (¬((truthy s.access_key && truthy s.secret_key) = true ∧
        chs.any (fun ch => isPrivateType ch.type) = true) →
      ticketMsg signer s t chs = [("ticket", JVal.s t)]) ∧
    (∀ ch : Channel,
      getKey (channelMsg ch) "type" = some (JVal.s ch.type) ∧
      getKey (channelMsg ch) "codes" = ch.codes.map JVal.strs ∧
      getKey (channelMsg ch) "isOnlyRealtime" = ch.isOnlyRealtime.map JVal.b ∧
      getKey (channelMsg ch) "isOnlySnapshot" = ch.isOnlySnapshot.map JVal.b) := by
  refine ⟨?_, ?_, ?_, ?_, ?_, ?_⟩
  · unfold subscribe
    rw [hc]
    rfl
  · by_cases h1 : (truthy s.access_key && truthy s.secret_key) = true <;>
      by_cases h2 : chs.any (fun ch => isPrivateType ch.type) = true <;>
      simp [ticketMsg, getKey, h1, h2]
  · by_cases h1 : (truthy s.access_key && truthy s.secret_key) = true <;>
      by_cases h2 : chs.any (fun ch => isPrivateType ch.type) = true <;>
      simp [ticketMsg, getKey, h1, h2]
  · intro h1 h2
    simp [ticketMsg, h1, h2]
  · intro h12
    rcases not_and_or.mp h12 with h1 | h2
    · simp [ticketMsg, Bool.not_eq_true _ ▸ h1]
    · by_cases h1 : (truthy s.access_key && truthy s.secret_key) = true <;>
        simp [ticketMsg, h1, Bool.not_eq_true _ ▸ h2]
  · intro ch
    obtain ⟨ty, cs, r, sn⟩ := ch
    cases cs <;> cases r <;> cases sn <;> simp [channelMsg, getKey]

/-- Witness for C5: the spec scenario — a ticker subscription with no
credentials configured yields a bare ticket frame with no `auth` key. -/
theorem subscribe_frame_characterized_witness :
    (subscribe (fun _ _ => "tok") (mkWebSocket none none)
        "my-ticket" [⟨"ticker", some ["KRW-BTC"], none, none⟩] = subscribe (fun _ _ => "tok") (mkWebSocket none none)
        "my-ticket" [⟨"ticker", some ["KRW-BTC"], none, none⟩]) ∧
    getKey (ticketMsg (fun _ _ => "tok")
        { mkWebSocket none none with websocket := some 0 }
        "my-ticket" [⟨"ticker", some ["KRW-BTC"], none, none⟩]) "auth" = none ∧
    ticketMsg (fun _ _ => "tok") { mkWebSocket none none with websocket := some 0 }
        "my-ticket" [⟨"ticker", some ["KRW-BTC"], none, none⟩] =
      [("ticket", JVal.s "my-ticket")] := by
  have h := subscribe_frame_characterized (fun _ _ => "tok")
    { mkWebSocket none none with websocket := some 0 } 0 "my-ticket"
    [⟨"ticker", some ["KRW-BTC"], none, none⟩] rfl
  refine ⟨rfl, ?_, h.2.2.2.2.1 (by decide)⟩
  have h3 := h.2.2.1
  simp only [Option.isSome_iff_exists] at h3
  cases hk : getKey (ticketMsg (fun _ _ => "tok")
      { mkWebSocket none none with websocket := some 0 }
      "my-ticket" [⟨"ticker", some ["KRW-BTC"], none, none⟩]) "auth" with
  | none => rfl
  | some v =>
    exact absurd (h3.mp ⟨v, hk⟩) (by decide)

/-- Claim C9: on a connected session with absent (or only one)
credential, a subscribe for private channels does not raise: the frame is
sent with a bare ticket element carrying no `auth` key, and the pair is
still appended — the private-channel credential requirement is not
enforced client-side. -/
theorem subscribe_private_without_credentials (signer : String → String → String)
    (s : UpbitWebSocket) (c : ℕ) (t : String) (chs : List Channel)
    (hc : s.websocket = some c)
    (hk : s.access_key = none ∨ s.secret_key = none)
    (_hpriv : chs.any (fun ch => isPrivateType ch.type) = true) :
    subscribe signer s t chs =
      .ok ({ s with subscriptions := s.subscriptions ++ [(t, chs)] },
           [("ticket", JVal.s t)]
             :: (chs.map channelMsg ++ [[("format", JVal.s "DEFAULT")]])) ∧
    getKey [("ticket", JVal.s t)] "auth" = none := by
  have hmsg : ticketMsg signer s t chs = [("ticket", JVal.s t)] := by
    rcases hk with hk | hk <;> simp [ticketMsg, truthy, hk]
  constructor
  · unfold subscribe
    rw [hc]
    unfold subscribeFrame
    rw [hmsg]
  · simp [getKey]

/-- Witness for C9: only an access key configured, a `myOrder` channel
requested. -/
theorem subscribe_private_without_credentials_witness :
    subscribe (fun _ _ => "tok")
        { mkWebSocket (some "ak") none with websocket := some 7 }
        "tick" [⟨"myOrder", none, none, none⟩] =
      .ok ({ { mkWebSocket (some "ak") none with websocket := some 7 } with
               subscriptions :=
                 ({ mkWebSocket (some "ak") none with
                      websocket := some 7 } : UpbitWebSocket).subscriptions ++
                   [("tick", [⟨"myOrder", none, none, none⟩])] },
           [("ticket", JVal.s "tick")]
             :: ([⟨"myOrder", none, none, none⟩].map channelMsg
                   ++ [[("format", JVal.s "DEFAULT")]])) ∧
    getKey [("ticket", JVal.s "tick")] "auth" = none :=
  subscribe_private_without_credentials (fun _ _ => "tok")
    { mkWebSocket (some "ak") none with websocket := some 7 } 7 "tick"
    [⟨"myOrder", none, none, none⟩] rfl (Or.inr rfl) (by decide)

/-- The frame built by `subscribe` does not depend on the tracked
subscription list. -/
theorem subscribeFrame_set_subs (signer : String → String → String)
    (s : UpbitWebSocket) (x : List (String × List Channel)) (t : String)
    (chs : List Channel) :
    subscribeFrame signer { s with subscriptions := x } t chs =
      subscribeFrame signer s t chs := rfl

/-- The `_resubscribe` loop over a saved list on a connected state: it
appends the whole list back in order and sends one frame per pair. -/
theorem resubscribeGo_ok (signer : String → String → String)
    (l : List (String × List Channel)) (s : UpbitWebSocket)
    (acc : List Frame) (c : ℕ) (hc : s.websocket = some c) :
    resubscribeGo signer l s acc =
      .ok ({ s with subscriptions := s.subscriptions ++ l },
           acc.reverse ++ l.map (fun p => subscribeFrame signer s p.1 p.2)) := by
  induction l generalizing s acc with
  | nil =>
    simp only [resubscribeGo, List.append_nil, List.map_nil]
  | cons hd tl ih =>
    obtain ⟨t, chs⟩ := hd
    have hsub : subscribe signer s t chs =
        .ok ({ s with subscriptions := s.subscriptions ++ [(t, chs)] },
             subscribeFrame signer s t chs) := by
      unfold subscribe
      rw [hc]
    unfold resubscribeGo
    rw [hsub]
    dsimp only
    rw [ih { s with subscriptions := s.subscriptions ++ [(t, chs)] }
        (subscribeFrame signer s t chs :: acc) hc]
    simp [subscribeFrame_set_subs, List.append_assoc]

/-- `UpbitWebSocket._resubscribe()` on a connected state returns the same
state (the cleared `subscriptions` are re-appended pair by pair, restoring
the original sequence in order) and sends one frame per tracked pair. -/
theorem resubscribe_ok (signer : String → String → String)
    (s : UpbitWebSocket) (c : ℕ) (hc : s.websocket = some c) :
    resubscribe signer s =
      .ok (s, s.subscriptions.map (fun p => subscribeFrame signer s p.1 p.2)) := by
  unfold resubscribe
  rw [resubscribeGo_ok signer s.subscriptions { s with subscriptions := [] } [] c hc]
  rfl

/-- Claim C2: a connection-closed event while running leaves
`subscriptions` untouched and clears the handle; the subsequent reconnect
replays exactly the pairs present at failure time, one subscribe per pair
in their original order, and `subscriptions` afterwards equals that same
sequence (the post-reconnect state is returned unchanged by
`_resubscribe`). -/
theorem ws_disconnect_preserves_and_replays (signer : String → String → String)
    (s : UpbitWebSocket) (c' : ℕ) (hrun : s.running = true) :
    (step signer s .runConnClosed).subscriptions = s.subscriptions ∧
    (step signer s .runConnClosed).websocket = none ∧
    (connectOk (step signer s .runConnClosed) c').subscriptions = s.subscriptions ∧
    resubscribe signer (connectOk (step signer s .runConnClosed) c') =
      .ok (connectOk (step signer s .runConnClosed) c',
           s.subscriptions.map (fun p =>
             subscribeFrame signer (connectOk (step signer s .runConnClosed) c') p.1 p.2)) := by
  have hstep : step signer s .runConnClosed =
      { s with websocket := none,
               reconnect_delay := min (s.reconnect_delay * 2) wsMaxReconnectDelay } := by
    unfold step stepOut
    rw [if_pos hrun]
  refine ⟨by rw [hstep], by rw [hstep], by rw [hstep]; rfl, ?_⟩
  have h := resubscribe_ok signer (connectOk (step signer s .runConnClosed) c') c' rfl
  rw [h, hstep]
  rfl

/-- Witness for C2: a running session with one tracked ticker
subscription loses the connection and replays it. -/
theorem ws_disconnect_preserves_and_replays_witness :
    (step (fun _ _ => "tok") wsExample .runConnClosed).subscriptions =
      wsExample.subscriptions ∧
    (step (fun _ _ => "tok") wsExample .runConnClosed).websocket = none ∧
    (connectOk (step (fun _ _ => "tok") wsExample .runConnClosed) 4).subscriptions =
      wsExample.subscriptions ∧
    resubscribe (fun _ _ => "tok")
        (connectOk (step (fun _ _ => "tok") wsExample .runConnClosed) 4) =
      .ok (connectOk (step (fun _ _ => "tok") wsExample .runConnClosed) 4,
           wsExample.subscriptions.map (fun p =>
             subscribeFrame (fun _ _ => "tok")
               (connectOk (step (fun _ _ => "tok") wsExample .runConnClosed) 4)
               p.1 p.2)) :=
  ws_disconnect_preserves_and_replays (fun _ _ => "tok") wsExample 4 rfl

/-- Every transition except the cancellation handler preserves the
connection-implies-running invariant. -/
theorem step_preserves_conn_implies_running (signer : String → String → String)
    (s : UpbitWebSocket) (e : WsEv) (h0 : wsConnImpliesRunning s)
    (hne : e ≠ WsEv.runCancel) :
    wsConnImpliesRunning (step signer s e) := by
  cases e with
  | connect c =>
    cases c with
    | none => exact h0
    | some c => intro _; rfl
  | subscribeEv t chs =>
    unfold step stepOut subscribe
    cases hw : s.websocket with
    | none => exact h0
    | some c =>
      intro _
      exact h0 (by rw [hw]; exact Option.some_ne_none c)
  | unsubscribeEv t => exact fun h => h0 h
  | closeEv => intro h; exact absurd rfl h
  | runReconnect c =>
    unfold step stepOut
    dsimp only
    rw [resubscribe_ok signer (connectOk s c) c rfl]
    intro _
    rfl
  | runConnClosed =>
    unfold step stepOut
    by_cases hr : s.running = true
    · rw [if_pos hr]
      intro h
      exact absurd rfl h
    · rw [if_neg hr]
      exact h0
  | runError =>
    unfold step stepOut
    by_cases hr : s.running = true
    · rw [if_pos hr]
      intro h
      exact absurd rfl h
    · rw [if_neg hr]
      exact h0
  | runCancel => exact absurd rfl hne
  | runMessage => exact h0

/-- Claim C3, amended: along any sequence of connect, subscribe,
unsubscribe, close and run-loop transitions that contains no cancellation
event, a non-`None` connection handle implies `running = true`.  (The
cancellation handler breaks the invariant as stated: it sets
`running = False` and re-raises without clearing the handle — see the
counterexample.) -/
theorem conn_implies_running_without_cancellation (signer : String → String → String)
    (s : UpbitWebSocket) (evs : List WsEv) (h0 : wsConnImpliesRunning s)
    (hnc : ∀ e ∈ evs, e ≠ WsEv.runCancel) :
    wsConnImpliesRunning (steps signer s evs) := by
  induction evs generalizing s with
  | nil => exact h0
  | cons e es ih =>
    exact ih (step signer s e)
      (step_preserves_conn_implies_running signer s e h0 (hnc e (List.mem_cons_self e es)))
      (fun e2 he2 => hnc e2 (List.mem_cons_of_mem e he2))

/-- Witness for amended C3: a fresh session that connects and then loses
the connection still satisfies the invariant. -/
theorem conn_implies_running_without_cancellation_witness :
    wsConnImpliesRunning
      (steps (fun _ _ => "") (mkWebSocket none none)
        [WsEv.connect (some 0), WsEv.runConnClosed]) :=
  conn_implies_running_without_cancellation (fun _ _ => "") (mkWebSocket none none)
    [WsEv.connect (some 0), WsEv.runConnClosed]
    (fun h => absurd rfl h) (by decide)

/-- Counterexample to C3 as stated: a cancellation signal arriving while
connected (here, right after a successful `connect` during `run`) leaves
the handle set with `running = False`, violating the claimed invariant. -/
theorem conn_implies_running_cancel_counterexample :
    ¬ wsConnImpliesRunning
        (steps (fun _ _ => "") (mkWebSocket none none)
          [WsEv.connect (some 0), WsEv.runCancel]) := by
  intro h
  exact absurd (h (by decide)) (by decide)

/-- Closed form of the reconnect backoff delay: doubling from 1, capped
at 60 from the sixth failure on. -/
theorem delayAfterFails_closed (n : ℕ) :
    delayAfterFails n = if n < 6 then 2 ^ n else 60 := by
  induction n with
  | zero => norm_num [delayAfterFails, wsReconnectDelay]
  | succ m ih =>
    by_cases hm : m < 6
    · interval_cases m <;>
        norm_num [delayAfterFails, wsReconnectDelay, wsMaxReconnectDelay, min_def]
    · rw [delayAfterFails, ih, if_neg hm, if_neg (by omega)]
      norm_num [wsMaxReconnectDelay, min_def]

/-- Each failure iteration while running sleeps the current delay, then
doubles it capped at the maximum; the sleep trace starting from
`delayAfterFails k` lists the successive `delayAfterFails` values. -/
theorem failureSleeps_from (signer : String → String → String) (n : ℕ) :
    ∀ (k : ℕ) (s : UpbitWebSocket), s.running = true →
      s.reconnect_delay = delayAfterFails k →
      failureSleeps signer n s =
        (List.range n).map (fun i => delayAfterFails (k + i)) := by
  induction n with
  | zero => intro k s _ _; rfl
  | succ m ih =>
    intro k s hr hd
    have hstep : stepOut signer s .runError =
        ({ s with websocket := none,
                  reconnect_delay := min (s.reconnect_delay * 2) wsMaxReconnectDelay },
         some s.reconnect_delay) := by
      unfold stepOut
      rw [if_pos hr]
    unfold failureSleeps
    rw [hstep]
    dsimp only
    rw [hd]
    rw [ih (k + 1)
        { s with websocket := none,
                 reconnect_delay := min (delayAfterFails k * 2) wsMaxReconnectDelay }
        hr (by rw [delayAfterFails])]
    rw [List.range_succ_eq_map, List.map_cons, List.map_map]
    congr 1
    congr 1
    funext i
    simp only [Function.comp_apply]
    congr 1
    omega

/-- Claim C4: from the base delay 1.0 with cap 60.0, the backoff sleeps
across `n` consecutive connect/receive failures are exactly
`1, 2, 4, 8, 16, 32, 60, 60, ...` (the `i`-th sleep is `2^i` for `i < 6`
and `60` thereafter), and every successful connect resets the delay to
1.0. -/
theorem ws_backoff_sequence (signer : String → String → String) :
    (∀ (s : UpbitWebSocket) (n : ℕ), s.running = true → s.reconnect_delay = 1 →
      failureSleeps signer n s = (List.range n).map delayAfterFails) ∧
    (∀ i, delayAfterFails i = if i < 6 then 2 ^ i else 60) ∧
    (∀ (s : UpbitWebSocket) (c : ℕ),
      (step signer s (.connect (some c))).reconnect_delay = 1) := by
  refine ⟨?_, delayAfterFails_closed, fun s c => rfl⟩
  intro s n hr hd
  have h := failureSleeps_from signer n 0 s hr (by rw [hd]; rfl)
  rw [h]
  simp

set_option maxRecDepth 8000 in
/-- Witness for C4: eight consecutive failures from a fresh running
session sleep exactly `1, 2, 4, 8, 16, 32, 60, 60`. -/
theorem ws_backoff_sequence_witness :
    failureSleeps (fun _ _ => "") 8 { mkWebSocket none none with running := true } =
      [1, 2, 4, 8, 16, 32, 60, 60] :=
  ((ws_backoff_sequence (fun _ _ => "")).1
      { mkWebSocket none none with running := true } 8 rfl rfl).trans
    (by with_unfolding_all decide)

end UpbitConnect
